import Mathlib

/-!
# Verification of the caching-fetch library (`src/caching-fetch-library/cachingFetch.ts`)

A shallow embedding of the TypeScript module.  JSON values are modelled by an
inductive `Json`; JavaScript truthiness by `truthy`; the module-level
`cache : Map<string, CacheEntry>` by an association list with unique keys
maintained by `cacheSet` (JS `Map.set` replaces an existing binding).
An `Error` object is modelled by its message string, the only part of it the
library ever consults (`value.error.message` in `serializeCache`) or
reconstructs (`new Error(value.error)` in `initializeCache`).

The asynchronous parts run on a single cooperative timeline (no parallel
threads), so the synchronous prefix of `fetchAndCache` — the de-duplication
check, starting `fetch`, and installing the pending entry — is one atomic
step, and the completion handler of the promise chain is another.  `Sys`
carries the cache together with a fresh-promise counter and a log of started
retrievals; `fetchAndCache` is the synchronous step, `completeFetch` the
completion handler for a given transport outcome.
-/

/-- A JSON value (JS objects have unique keys; numbers are modelled by `Int`,
which covers every value these proofs touch). -/
inductive Json where
  | null : Json
  | bool : Bool → Json
  | num : Int → Json
  | str : String → Json
  | arr : List Json → Json
  | obj : List (String × Json) → Json
deriving Repr

mutual

def Json.beq : Json → Json → Bool
  | .null, .null => true
  | .bool a, .bool b => a == b
  | .num a, .num b => a == b
  | .str a, .str b => a == b
  | .arr a, .arr b => Json.beqList a b
  | .obj a, .obj b => Json.beqFields a b
  | _, _ => false

def Json.beqList : List Json → List Json → Bool
  | [], [] => true
  | a :: as, b :: bs => Json.beq a b && Json.beqList as bs
  | _, _ => false

def Json.beqFields : List (String × Json) → List (String × Json) → Bool
  | [], [] => true
  | (k, a) :: as, (l, b) :: bs => k == l && Json.beq a b && Json.beqFields as bs
  | _, _ => false

end

mutual

theorem Json.beq_eq : ∀ a b : Json, Json.beq a b = true → a = b
  | .null, .null, _ => rfl
  | .bool a, .bool b, h => by simpa [Json.beq] using h
  | .num a, .num b, h => by simpa [Json.beq] using h
  | .str a, .str b, h => by simpa [Json.beq] using h
  | .arr a, .arr b, h => by
      rw [Json.beqList_eq a b (by simpa [Json.beq] using h)]
  | .obj a, .obj b, h => by
      rw [Json.beqFields_eq a b (by simpa [Json.beq] using h)]

theorem Json.beqList_eq : ∀ a b : List Json, Json.beqList a b = true → a = b
  | [], [], _ => rfl
  | a :: as, b :: bs, h => by
      have h' := h
      simp only [Json.beqList, Bool.and_eq_true] at h'
      rw [Json.beq_eq a b h'.1, Json.beqList_eq as bs h'.2]

theorem Json.beqFields_eq :
    ∀ a b : List (String × Json), Json.beqFields a b = true → a = b
  | [], [], _ => rfl
  | (k, a) :: as, (l, b) :: bs, h => by
      have h' := h
      simp only [Json.beqFields, Bool.and_eq_true] at h'
      have hk : k = l := by simpa using h'.1.1
      rw [hk, Json.beq_eq a b h'.1.2, Json.beqFields_eq as bs h'.2]

end

mutual

theorem Json.beq_refl : ∀ a : Json, Json.beq a a = true
  | .null => rfl
  | .bool a => by simp [Json.beq]
  | .num a => by simp [Json.beq]
  | .str a => by simp [Json.beq]
  | .arr a => by simpa [Json.beq] using Json.beqList_refl a
  | .obj a => by simpa [Json.beq] using Json.beqFields_refl a

theorem Json.beqList_refl : ∀ a : List Json, Json.beqList a a = true
  | [] => rfl
  | a :: as => by
      simp only [Json.beqList, Bool.and_eq_true]
      exact ⟨Json.beq_refl a, Json.beqList_refl as⟩

theorem Json.beqFields_refl :
    ∀ a : List (String × Json), Json.beqFields a a = true
  | [] => rfl
  | (k, a) :: as => by
      simp only [Json.beqFields, Bool.and_eq_true]
      exact ⟨⟨by simp, Json.beq_refl a⟩, Json.beqFields_refl as⟩

end

instance : DecidableEq Json := fun a b =>
  if h : Json.beq a b = true then
    .isTrue (Json.beq_eq a b h)
  else
    .isFalse (fun he => h (he ▸ Json.beq_refl a))

/-- JavaScript truthiness of a JSON value: `null`, `false`, `0` and `""` are
falsy; every object and array is truthy. -/
def truthy : Json → Bool
  | .null => false
  | .bool b => b
  | .num n => n != 0
  | .str s => s != ""
  | .arr _ => true
  | .obj _ => true

mutual

/-- JavaScript `String(x)` on a JSON value (used by `new Error(value.error)`,
whose `message` is `String(value.error)` when the argument is not already a
string). -/
def jsString : Json → String
  | .null => "null"
  | .bool b => if b then "true" else "false"
  | .num n => toString n
  | .str s => s
  | .arr xs => jsStringList xs
  | .obj _ => "[object Object]"

/-- `Array.prototype.toString`: elements joined by `","`, with `null`
rendering as the empty string. -/
def jsStringList : List Json → String
  | [] => ""
  | [x] => if x = Json.null then "" else jsString x
  | x :: xs => (if x = Json.null then "" else jsString x) ++ "," ++ jsStringList xs

end

/-- `CacheEntry` from the source: `{ data: unknown | null; error: Error | null;
promise?: Promise<void> }`.  `data` is a JSON value (`Json.null` for JS
`null`), `error` the message of the stored `Error` (or `none` for `null`),
`promise` the identity of the in-flight promise when present. -/
structure CacheEntry where
  data : Json
  error : Option String
  promise : Option Nat
deriving Repr, DecidableEq

/-- The module-level `cache : Map<string, CacheEntry>`, as an association
list whose keys `cacheSet` keeps unique. -/
abbrev Cache := List (String × CacheEntry)

/-- `cache.get(url)`. -/
def cacheGet (url : String) : Cache → Option CacheEntry
  | [] => none
  | (k, e) :: tl => if k = url then some e else cacheGet url tl

/-- `cache.set(url, e)`: replaces the binding for `url` if present, else
appends it. -/
def cacheSet (url : String) (e : CacheEntry) : Cache → Cache
  | [] => [(url, e)]
  | (k, e') :: tl => if k = url then (url, e) :: tl else (k, e') :: cacheSet url e tl

/-- `cache.clear()` leaves the empty map. -/
def cacheClear : Cache := []

/-- The outcome of `fetch(url)` as the completion handlers observe it:
the response's `ok` flag and `status`, and the result of `res.json()` —
either the decoded value or the decoder's error message. -/
structure Response where
  ok : Bool
  status : Nat
  json : Except String Json
deriving Repr

/-- The entry written by the promise chain of `fetchAndCache` once the
retrieval settles: on `!res.ok`, throw `Error("Request failed with status "
+ status)`; otherwise decode, storing `{data, error: null}` on success; any
thrown error is caught and stored as `{data: null, error}`. -/
def settleEntry (r : Response) : CacheEntry :=
  if r.ok then
    match r.json with
    | .ok d => { data := d, error := none, promise := none }
    | .error m => { data := Json.null, error := some m, promise := none }
  else
    { data := Json.null
      error := some ("Request failed with status " ++ toString r.status)
      promise := none }

/-- The process state: the cache, a counter supplying the identity of the
next promise created, and the log of retrievals started (each `fetch(url)`
call appends `(url, promiseId)`). -/
structure Sys where
  cache : Cache
  nextId : Nat
  starts : List (String × Nat)
deriving Repr, DecidableEq

/-- `existing?.data ?? null`: the data carried over into the pending entry. -/
def entryData (c : Cache) (url : String) : Json :=
  match cacheGet url c with
  | some e => e.data
  | none => Json.null

/-- The synchronous step of `fetchAndCache(url)`: if the existing entry holds
a promise, return it (de-duplication); otherwise start one retrieval and
install the pending entry `{data: existing?.data ?? null, error: null,
promise}`.  Returns the promise the caller receives. -/
def fetchAndCache (url : String) (s : Sys) : Sys × Nat :=
  match (cacheGet url s.cache).bind (fun e => e.promise) with
  | some p => (s, p)
  | none =>
    ({ cache := cacheSet url
          { data := entryData s.cache url, error := none, promise := some s.nextId }
          s.cache
       nextId := s.nextId + 1
       starts := (url, s.nextId) :: s.starts }, s.nextId)

/-- The completion handler of the retrieval for `url`: writes the settled
entry into the cache unconditionally (the closure captures `url`; it never
re-checks the current state of the store). -/
def completeFetch (url : String) (r : Response) (s : Sys) : Sys :=
  { s with cache := cacheSet url (settleEntry r) s.cache }

/-- The guard `cached?.data || cached?.error` shared by `useCachingFetch`'s
effect and `preloadCachingFetch`: a stored `Error` object is always truthy,
`data` is tested for JS truthiness. -/
def hasDataOrError (c : Cache) (url : String) : Bool :=
  match cacheGet url c with
  | none => false
  | some e => truthy e.data || e.error.isSome

/-- `preloadCachingFetch(url)`: return immediately when the guard holds, else
delegate to `fetchAndCache` (its awaited completion is a separate
`completeFetch` step). -/
def preloadCachingFetch (url : String) (s : Sys) : Sys :=
  if hasDataOrError s.cache url then s else (fetchAndCache url s).1

/-- The `{ data, error, isLoading }` value a consumer of `useCachingFetch`
observes. -/
structure FetchSnapshot where
  isLoading : Bool
  data : Json
  error : Option String
deriving Repr, DecidableEq

/-- The initial render of `useCachingFetch(url)`, before any effect runs:
`data := cached?.data ?? null`, `error := cached?.error ?? null`,
`isLoading := !cached || (!cached.data && !cached.error)` (truthiness). -/
def useCachingFetch (url : String) (c : Cache) : FetchSnapshot :=
  match cacheGet url c with
  | none => { isLoading := true, data := Json.null, error := none }
  | some e =>
      { isLoading := !(truthy e.data || e.error.isSome)
        data := e.data
        error := e.error }

/-- The effect of `useCachingFetch`: when the guard `cachedEntry?.data ||
cachedEntry?.error` fails, call `fetchAndCache(url)` (the local setState
calls do not touch the store). -/
def useCachingFetchEffect (url : String) (s : Sys) : Sys :=
  if hasDataOrError s.cache url then s else (fetchAndCache url s).1

/-- `wipeCache()`: `cache.clear()`. -/
def wipeCache (s : Sys) : Sys :=
  { s with cache := cacheClear }

/-- `serializeCache`'s per-entry image: `{ data: value.data, error:
value.error ? value.error.message : null }`. -/
def serializeEntry (e : CacheEntry) : Json :=
  Json.obj [("data", e.data),
            ("error", match e.error with
                      | some m => Json.str m
                      | none => Json.null)]

/-- `serializeCache()`: the JSON object `JSON.stringify` renders, one field
per cache key in iteration order (`JSON.parse ∘ JSON.stringify` is the
identity on this fragment, so the string layer is left to the platform). -/
def serializeCache (c : Cache) : Json :=
  Json.obj (c.map (fun p => (p.1, serializeEntry p.2)))

/-- Property access `v.data` / `v.error`: a field of an object (JS object
keys are unique), `undefined` (`none`) on every other JSON value. -/
def getField (v : Json) (k : String) : Option Json :=
  match v with
  | .obj fs => lookupField fs k
  | _ => none
where
  lookupField : List (String × Json) → String → Option Json
    | [], _ => none
    | (k', x) :: tl, k => if k' = k then some x else lookupField tl k

/-- `Object.entries(parsed)`: `none` models the `TypeError` thrown on `null`
(caught by `initializeCache`'s `try`); numbers and booleans have no own
enumerable properties; strings enumerate their characters by index; arrays
their elements by index; objects their fields. -/
def snapshotEntries : Json → Option (List (String × Json))
  | .null => none
  | .bool _ => some []
  | .num _ => some []
  | .str s => some (s.toList.enum.map (fun p => (toString p.1, Json.str (String.mk [p.2]))))
  | .arr xs => some (xs.enum.map (fun p => (toString p.1, p.2)))
  | .obj fs => some fs

/-- The entry `initializeCache` installs for a snapshot value `v`:
`{ data: value.data, error: value.error ? new Error(value.error) : null }`
(an absent `data` field stores `undefined`, which this model conflates with
`null` — same truthiness, and no claim re-serializes such an entry). -/
def hydrateEntry (v : Json) : CacheEntry :=
  { data := (getField v "data").getD Json.null
    error :=
      match getField v "error" with
      | some e => if truthy e then some (jsString e) else none
      | none => none
    promise := none }

/-- The `forEach` loop of `initializeCache` over the parsed entries. -/
def hydrateList (c : Cache) (l : List (String × Json)) : Cache :=
  l.foldl (fun acc p => cacheSet p.1 (hydrateEntry p.2) acc) c

/-- What `JSON.parse(serializedCache)` yields inside `initializeCache`:
the argument was the empty string (caught by the `!serializedCache` guard),
or parsing threw (e.g. on `"not valid json"`), or it produced a value. -/
inductive ParsedInput where
  | empty : ParsedInput
  | malformed : ParsedInput
  | parsed : Json → ParsedInput
deriving Repr

/-- `initializeCache(serializedCache)`: empty input returns early; a parse
failure — and the `TypeError` of `Object.entries(null)` — is swallowed by
the `catch`, leaving the store untouched; otherwise every parsed entry is
`cache.set` in order. -/
def initializeCache (c : Cache) (input : ParsedInput) : Cache :=
  match input with
  | .empty => c
  | .malformed => c
  | .parsed j =>
    match snapshotEntries j with
    | none => c
    | some l => hydrateList c l

/-- The number of retrievals started for `url` in the log. -/
def startsFor (url : String) (s : Sys) : Nat :=
  (s.starts.filter (fun p => p.1 = url)).length

/-- One concurrent consumer in the pending window: a direct coordinator call
(`fetchAndCache`, as `preloadCachingFetch` issues after its guard) or the
effect of `useCachingFetch` (`read`). -/
inductive CoreCall where
  | ensure : CoreCall
  | read : CoreCall
deriving Repr, DecidableEq

/-- Run one consumer's call for `url`, returning the promise it receives
(`none` when the read's guard skips the fetch). -/
def runCall (url : String) (s : Sys) : CoreCall → Sys × Option Nat
  | .ensure =>
      let r := fetchAndCache url s
      (r.1, some r.2)
  | .read =>
      if hasDataOrError s.cache url then (s, none)
      else
        let r := fetchAndCache url s
        (r.1, some r.2)

/-- Run a sequence of consumers' calls for `url` on the single cooperative
timeline, collecting the promise each one receives. -/
def runCalls (url : String) (s : Sys) : List CoreCall → Sys × List (Option Nat)
  | [] => (s, [])
  | c :: cs =>
      let r := runCall url s c
      let rest := runCalls url r.1 cs
      (rest.1, r.2 :: rest.2)

/-- The value the last snapshot entry for key `k` carries, if any (later
`cache.set` calls win). -/
def lastLookup (k : String) : List (String × Json) → Option Json
  | [] => none
  | (k', v) :: tl =>
      match lastLookup k tl with
      | some w => some w
      | none => if k' = k then some v else none

/-- Invariant I2 on one entry: `data` and `error` are mutually exclusive
(never both non-null), and both are absent while the entry is pending. -/
def EntryI2 (e : CacheEntry) : Prop :=
  (e.data = Json.null ∨ e.error = none) ∧
  (e.promise ≠ none → e.data = Json.null ∧ e.error = none)

instance (e : CacheEntry) : Decidable (EntryI2 e) := by
  unfold EntryI2
  infer_instance

/-- Invariant I2 over the whole store. -/
def StoreI2 (c : Cache) : Prop := ∀ p ∈ c, EntryI2 p.2

instance (c : Cache) : Decidable (StoreI2 c) :=
  List.decidableBAll _ c

/-- A snapshot value whose hydrated entry keeps `data` and `error` mutually
exclusive: its `data` field is null/absent, or its `error` field is falsy. -/
def exclusiveField (v : Json) : Prop :=
  (getField v "data").getD Json.null = Json.null ∨
  truthy ((getField v "error").getD Json.null) = false

instance (v : Json) : Decidable (exclusiveField v) := by
  unfold exclusiveField
  infer_instance

/-! ## Basic lemmas about the store -/

theorem cacheGet_cacheSet (url k : String) (e : CacheEntry) (c : Cache) :
    cacheGet k (cacheSet url e c) = if url = k then some e else cacheGet k c := by
  induction c with
  | nil => simp [cacheSet, cacheGet]
  | cons p tl ih =>
      obtain ⟨k', e'⟩ := p
      simp only [cacheSet]
      by_cases h : k' = url
      · subst h
        simp only [if_pos rfl, cacheGet]
        by_cases hk : k' = k <;> simp [hk]
      · have hu : ¬ url = k' := fun hu => h hu.symm
        simp only [if_neg h, cacheGet, ih]
        by_cases hk : k' = k
        · subst hk
          simp [hu]
        · simp [hk]

theorem cacheGet_hydrateList (k : String) (c : Cache) (l : List (String × Json)) :
    cacheGet k (hydrateList c l) =
      match lastLookup k l with
      | some v => some (hydrateEntry v)
      | none => cacheGet k c := by
  induction l generalizing c with
  | nil => simp [hydrateList, lastLookup]
  | cons p tl ih =>
      obtain ⟨k', v⟩ := p
      have : hydrateList c ((k', v) :: tl) = hydrateList (cacheSet k' (hydrateEntry v) c) tl := rfl
      rw [this, ih]
      cases h : lastLookup k tl with
      | some w => simp [lastLookup, h]
      | none =>
          simp only [lastLookup, h, cacheGet_cacheSet]
          by_cases hk : k' = k <;> simp [hk]

theorem mem_of_cacheGet (k : String) (c : Cache) (e : CacheEntry)
    (h : cacheGet k c = some e) : (k, e) ∈ c := by
  induction c with
  | nil => simp [cacheGet] at h
  | cons p tl ih =>
      obtain ⟨k', e'⟩ := p
      by_cases hk : k' = k
      · subst hk
        rw [show cacheGet k' ((k', e') :: tl) = some e' from if_pos rfl] at h
        injection h with h1
        subst h1
        exact List.mem_cons_self _ _
      · rw [show cacheGet k ((k', e') :: tl) = cacheGet k tl from if_neg hk] at h
        exact List.mem_cons_of_mem _ (ih h)

theorem cacheGet_eq_none_of_not_mem (k : String) (c : Cache)
    (h : k ∉ c.map Prod.fst) : cacheGet k c = none := by
  induction c with
  | nil => rfl
  | cons p tl ih =>
      obtain ⟨k', e'⟩ := p
      simp only [List.map_cons, List.mem_cons] at h
      push_neg at h
      have hk : ¬ (k' = k) := fun he => h.1 he.symm
      rw [show cacheGet k ((k', e') :: tl) = cacheGet k tl from if_neg hk]
      exact ih h.2

theorem lastLookup_map_serialize (k : String) (c : Cache)
    (h : (c.map Prod.fst).Nodup) :
    lastLookup k (c.map (fun p => (p.1, serializeEntry p.2))) =
      (cacheGet k c).map serializeEntry := by
  induction c with
  | nil => rfl
  | cons p tl ih =>
      obtain ⟨k', e⟩ := p
      simp only [List.map_cons, List.nodup_cons] at h
      have ihtl := ih h.2
      simp only [List.map_cons, lastLookup, ihtl, cacheGet]
      by_cases hk : k' = k
      · subst hk
        rw [cacheGet_eq_none_of_not_mem k' tl h.1]
        simp
      · rw [if_neg hk, if_neg hk]
        cases cacheGet k tl <;> simp

theorem hydrateEntry_serializeEntry (e : CacheEntry)
    (hp : e.promise = none) (hm : e.error ≠ some "") :
    hydrateEntry (serializeEntry e) = e := by
  obtain ⟨d, err, pr⟩ := e
  subst hp
  cases err with
  | none => rfl
  | some m =>
      have hm' : m ≠ "" := fun h => hm (by rw [h])
      simp [hydrateEntry, serializeEntry, getField, getField.lookupField, truthy,
        hm', jsString]

theorem EntryI2_settleEntry (r : Response) : EntryI2 (settleEntry r) := by
  unfold settleEntry EntryI2
  cases hok : r.ok <;> cases hj : r.json <;> simp

theorem EntryI2_hydrateEntry (v : Json) (h : exclusiveField v) :
    EntryI2 (hydrateEntry v) := by
  unfold exclusiveField at h
  unfold EntryI2 hydrateEntry
  refine ⟨?_, by simp⟩
  cases hf : getField v "error" with
  | none => simp
  | some ev =>
      rcases h with h | h
      · exact Or.inl h
      · rw [hf] at h
        simp only [Option.getD_some] at h
        simp [h]

theorem StoreI2_cacheSet (k : String) (e : CacheEntry) (c : Cache)
    (hc : StoreI2 c) (he : EntryI2 e) : StoreI2 (cacheSet k e c) := by
  induction c with
  | nil =>
      intro p hp
      simp only [cacheSet, List.mem_singleton] at hp
      subst hp
      exact he
  | cons q tl ih =>
      obtain ⟨k', e'⟩ := q
      have htl : StoreI2 tl := fun p hp => hc p (List.mem_cons_of_mem _ hp)
      by_cases hk : k' = k
      · intro p hp
        simp only [cacheSet, if_pos hk, List.mem_cons] at hp
        rcases hp with hp | hp
        · subst hp; exact he
        · exact htl p hp
      · intro p hp
        simp only [cacheSet, if_neg hk, List.mem_cons] at hp
        rcases hp with hp | hp
        · subst hp; exact hc _ (List.mem_cons_self _ _)
        · exact ih htl p hp

theorem StoreI2_hydrateList (c : Cache) (l : List (String × Json))
    (hc : StoreI2 c) (hl : ∀ p ∈ l, exclusiveField p.2) :
    StoreI2 (hydrateList c l) := by
  induction l generalizing c with
  | nil => exact hc
  | cons p tl ih =>
      obtain ⟨k, v⟩ := p
      have step : hydrateList c ((k, v) :: tl) =
          hydrateList (cacheSet k (hydrateEntry v) c) tl := rfl
      rw [step]
      refine ih _ ?_ (fun q hq => hl q (List.mem_cons_of_mem _ hq))
      exact StoreI2_cacheSet _ _ _ hc
        (EntryI2_hydrateEntry v (hl (k, v) (List.mem_cons_self _ _)))

/-! ## Lemmas about concurrent calls in one pending window -/

theorem fetchAndCache_of_pending (url : String) (s : Sys) (e : CacheEntry)
    (p : Nat) (he : cacheGet url s.cache = some e) (hp : e.promise = some p) :
    fetchAndCache url s = (s, p) := by
  unfold fetchAndCache
  rw [he]
  simp [hp]

theorem fetchAndCache_of_empty (url : String) (s : Sys)
    (h : cacheGet url s.cache = none) :
    fetchAndCache url s =
      ({ cache := cacheSet url { data := Json.null, error := none, promise := some s.nextId } s.cache
         nextId := s.nextId + 1
         starts := (url, s.nextId) :: s.starts }, s.nextId) := by
  unfold fetchAndCache
  rw [h]
  simp [entryData, h]

theorem runCall_of_pending (url : String) (s : Sys) (e : CacheEntry) (p : Nat)
    (he : cacheGet url s.cache = some e) (hp : e.promise = some p)
    (hd : truthy e.data = false) (herr : e.error = none) (c : CoreCall) :
    runCall url s c = (s, some p) := by
  cases c with
  | ensure => simp [runCall, fetchAndCache_of_pending url s e p he hp]
  | read =>
      have hg : hasDataOrError s.cache url = false := by
        simp [hasDataOrError, he, hd, herr]
      simp [runCall, hg, fetchAndCache_of_pending url s e p he hp]

theorem runCalls_of_pending (url : String) (s : Sys) (e : CacheEntry) (p : Nat)
    (he : cacheGet url s.cache = some e) (hp : e.promise = some p)
    (hd : truthy e.data = false) (herr : e.error = none) (cs : List CoreCall) :
    runCalls url s cs = (s, cs.map (fun _ => some p)) := by
  induction cs with
  | nil => rfl
  | cons c tl ih =>
      simp [runCalls, runCall_of_pending url s e p he hp hd herr c, ih]

theorem runCall_of_empty (url : String) (s : Sys) (c : CoreCall)
    (h : cacheGet url s.cache = none) :
    runCall url s c = ((fetchAndCache url s).1, some s.nextId) := by
  cases c with
  | ensure => simp [runCall, fetchAndCache_of_empty url s h]
  | read =>
      have hg : hasDataOrError s.cache url = false := by
        simp [hasDataOrError, h]
      simp [runCall, hg, fetchAndCache_of_empty url s h]

theorem cacheGet_after_start (url : String) (s : Sys)
    (h : cacheGet url s.cache = none) :
    cacheGet url (fetchAndCache url s).1.cache =
      some { data := Json.null, error := none, promise := some s.nextId } := by
  rw [fetchAndCache_of_empty url s h]
  simp [cacheGet_cacheSet]

theorem startsFor_after_start (url : String) (s : Sys)
    (h : cacheGet url s.cache = none) :
    startsFor url (fetchAndCache url s).1 = startsFor url s + 1 := by
  rw [fetchAndCache_of_empty url s h]
  simp [startsFor]

theorem runCalls_of_empty (url : String) (s : Sys) (c : CoreCall)
    (cs : List CoreCall) (h : cacheGet url s.cache = none) :
    runCalls url s (c :: cs) =
      ((fetchAndCache url s).1, (c :: cs).map (fun _ => some s.nextId)) := by
  have hrest := runCalls_of_pending url (fetchAndCache url s).1
    { data := Json.null, error := none, promise := some s.nextId } s.nextId
    (cacheGet_after_start url s h) rfl rfl rfl cs
  simp [runCalls, runCall_of_empty url s c h, hrest]

/-! ## Claim theorems -/

/-- Claim C1: for a key with no existing cache entry, K ≥ 1 concurrent
`useCachingFetch`/`fetchAndCache` callers in the same pending window start
exactly one retrieval; at most one retrieval is in flight at every point of
the window; every caller receives the same promise (`s.nextId`), which stays
installed as the entry's single in-flight handle; and once that retrieval
completes, the one settled entry every caller reads is the same. -/
theorem dedup_single_retrieval (s : Sys) (url : String) (calls : List CoreCall)
    (hnone : cacheGet url s.cache = none) (hne : calls ≠ []) :
    startsFor url (runCalls url s calls).1 = startsFor url s + 1 ∧
    (runCalls url s calls).2 = calls.map (fun _ => some s.nextId) ∧
    (cacheGet url (runCalls url s calls).1.cache).bind (fun e => e.promise) = some s.nextId ∧
    (∀ n, startsFor url (runCalls url s (calls.take n)).1 ≤ startsFor url s + 1) ∧
    (∀ r, cacheGet url (completeFetch url r (runCalls url s calls).1).cache =
      some (settleEntry r)) := by
  cases calls with
  | nil => exact absurd rfl hne
  | cons c cs =>
      rw [runCalls_of_empty url s c cs hnone]
      refine ⟨startsFor_after_start url s hnone, rfl, ?_, ?_, ?_⟩
      · rw [cacheGet_after_start url s hnone]
        rfl
      · intro n
        cases n with
        | zero => exact Nat.le_succ _
        | succ m =>
            rw [List.take_succ_cons, runCalls_of_empty url s c (cs.take m) hnone]
            exact Nat.le_of_eq (startsFor_after_start url s hnone)
      · intro r
        simp [completeFetch, cacheGet_cacheSet]

/-- Witness for C1: three concurrent consumers (read, ensure, read) of a
fresh key start exactly one retrieval. -/
theorem dedup_single_retrieval_witness :
    startsFor "u" (runCalls "u" (⟨[], 0, []⟩ : Sys)
      [CoreCall.read, CoreCall.ensure, CoreCall.read]).1 =
      startsFor "u" (⟨[], 0, []⟩ : Sys) + 1 :=
  (dedup_single_retrieval ⟨[], 0, []⟩ "u" [CoreCall.read, CoreCall.ensure, CoreCall.read]
    rfl (by decide)).1

/-- Claim C4: a parse failure inside `initializeCache` — including the one
the empty-string guard short-circuits — leaves the store exactly unchanged;
the function is total, so nothing is raised to the caller.  (Under the
embedding of `JSON.parse`, `"not valid json"` is a `ParsedInput.malformed`
input.) -/
theorem initializeCache_failOpen (c : Cache) :
    initializeCache c ParsedInput.malformed = c ∧
    initializeCache c ParsedInput.empty = c :=
  ⟨rfl, rfl⟩

/-- Claim C7: hydrating the same snapshot twice yields the same store
content, key by key, as hydrating it once. -/
theorem initializeCache_idempotent (c : Cache) (input : ParsedInput) (k : String) :
    cacheGet k (initializeCache (initializeCache c input) input) =
      cacheGet k (initializeCache c input) := by
  cases input with
  | empty => rfl
  | malformed => rfl
  | parsed j =>
      cases hs : snapshotEntries j with
      | none => simp [initializeCache, hs]
      | some l =>
          simp only [initializeCache, hs]
          have h1 := cacheGet_hydrateList k (hydrateList c l) l
          have h2 := cacheGet_hydrateList k c l
          cases hl : lastLookup k l with
          | some v =>
              simp only [hl] at h1 h2
              rw [h1, h2]
          | none =>
              simp only [hl] at h1
              rw [h1]

/-- Claim C8: an unsuccessful retrieval stores only an error message with
`data = null`: a non-success transport status stores the message
`"Request failed with status <code>"`, and a decode failure stores the
decoder's message. -/
theorem settleEntry_failureMessage (r : Response) :
    (r.ok = false →
      settleEntry r =
        { data := Json.null
          error := some ("Request failed with status " ++ toString r.status)
          promise := none }) ∧
    (∀ m, r.ok = true → r.json = Except.error m →
      settleEntry r = { data := Json.null, error := some m, promise := none }) := by
  constructor
  · intro h
    simp [settleEntry, h]
  · intro m hok hj
    simp [settleEntry, hok, hj]

/-- Witness for C8: a 404 response and a decode failure at concrete inputs. -/
theorem settleEntry_failureMessage_witness :
    settleEntry ⟨false, 404, Except.ok Json.null⟩ =
      { data := Json.null, error := some "Request failed with status 404", promise := none } ∧
    settleEntry ⟨true, 200, Except.error "Unexpected token o in JSON"⟩ =
      { data := Json.null, error := some "Unexpected token o in JSON", promise := none } :=
  ⟨by simpa using (settleEntry_failureMessage ⟨false, 404, Except.ok Json.null⟩).1 rfl,
   (settleEntry_failureMessage ⟨true, 200, Except.error "Unexpected token o in JSON"⟩).2
     _ rfl rfl⟩

/-- Claim C9: if `wipeCache` runs while a retrieval for a key is in flight,
the completion handler still writes the settled outcome unconditionally, so
the wiped store regains an entry for the key with no further
read/ensure/preload call, and no new retrieval is started by the wipe or the
completion. -/
theorem wipe_during_pending (s : Sys) (url : String) (r : Response)
    (h : cacheGet url s.cache = none) :
    (cacheGet url (fetchAndCache url s).1.cache).bind (fun e => e.promise) = some s.nextId ∧
    (wipeCache (fetchAndCache url s).1).cache = [] ∧
    cacheGet url (completeFetch url r (wipeCache (fetchAndCache url s).1)).cache =
      some (settleEntry r) ∧
    (completeFetch url r (wipeCache (fetchAndCache url s).1)).starts =
      (fetchAndCache url s).1.starts := by
  refine ⟨?_, rfl, ?_, rfl⟩
  · rw [cacheGet_after_start url s h]
    rfl
  · simp [completeFetch, wipeCache, cacheClear, cacheGet_cacheSet]

/-- Witness for C9: start a retrieval for a fresh key, wipe, then complete:
the entry reappears. -/
theorem wipe_during_pending_witness :
    cacheGet "u" (completeFetch "u" ⟨true, 200, Except.ok (Json.str "x")⟩
      (wipeCache (fetchAndCache "u" (⟨[], 0, []⟩ : Sys)).1)).cache =
      some (settleEntry ⟨true, 200, Except.ok (Json.str "x")⟩) :=
  (wipe_during_pending ⟨[], 0, []⟩ "u" ⟨true, 200, Except.ok (Json.str "x")⟩ rfl).2.2.1

/-- Claim C10: a snapshot entry whose `error` field is the empty string is
installed by `initializeCache` with `error = null` (as resolved, not
failed), because `value.error ? new Error(value.error) : null` tests the
message for truthiness; the empty message does not survive hydration. -/
theorem initializeCache_emptyErrorMessage (c : Cache) (k : String) (d : Json) :
    cacheGet k (initializeCache c
      (ParsedInput.parsed (Json.obj [(k, Json.obj [("data", d), ("error", Json.str "")])]))) =
      some { data := d, error := none, promise := none } := by
  simp [initializeCache, snapshotEntries, hydrateList, hydrateEntry, getField,
    getField.lookupField, truthy, cacheGet_cacheSet]

/-- Claim C2, counterexample: a retrieval that resolves with the falsy
payload `0` leaves the entry `{data: 0, error: null}`; the next
`preloadCachingFetch` call for that key fails the truthiness guard
`cached?.data || cached?.error` and starts a new retrieval — the claim's
"0 new retrievals for every stored data value" is false at data `0`. -/
theorem cacheForever_cex :
    cacheGet "u" (completeFetch "u" ⟨true, 200, Except.ok (Json.num 0)⟩
      (⟨[], 0, []⟩ : Sys)).cache =
      some { data := Json.num 0, error := none, promise := none } ∧
    startsFor "u" (completeFetch "u" ⟨true, 200, Except.ok (Json.num 0)⟩
      (⟨[], 0, []⟩ : Sys)) = 0 ∧
    startsFor "u" (preloadCachingFetch "u" (completeFetch "u"
      ⟨true, 200, Except.ok (Json.num 0)⟩ (⟨[], 0, []⟩ : Sys))) = 1 := by
  decide

/-- Claim C2 as amended: for a key whose entry stores a truthy data value or
a non-null error, every subsequent `preloadCachingFetch` call and every
`useCachingFetch` effect leaves the state unchanged (0 new retrievals), and
the hook reflects the stored outcome with `isLoading = false`. -/
theorem cacheForever_truthy (s : Sys) (url : String) (e : CacheEntry)
    (he : cacheGet url s.cache = some e)
    (hde : truthy e.data = true ∨ e.error ≠ none) :
    preloadCachingFetch url s = s ∧
    useCachingFetchEffect url s = s ∧
    useCachingFetch url s.cache =
      { isLoading := false, data := e.data, error := e.error } := by
  have hb : (truthy e.data || e.error.isSome) = true := by
    rcases hde with h | h
    · simp [h]
    · simp [Option.isSome_iff_ne_none.mpr h]
  have hg : hasDataOrError s.cache url = true := by
    simp [hasDataOrError, he, hb]
  refine ⟨?_, ?_, ?_⟩
  · simp [preloadCachingFetch, hg]
  · simp [useCachingFetchEffect, hg]
  · simp [useCachingFetch, he, hb]

/-- Witness for C2 (amended): a resolved entry with the truthy payload `1`
is not refetched by `preloadCachingFetch`. -/
theorem cacheForever_truthy_witness :
    preloadCachingFetch "u" (⟨[("u", ⟨Json.num 1, none, none⟩)], 3, []⟩ : Sys) =
      (⟨[("u", ⟨Json.num 1, none, none⟩)], 3, []⟩ : Sys) :=
  (cacheForever_truthy ⟨[("u", ⟨Json.num 1, none, none⟩)], 3, []⟩ "u"
    ⟨Json.num 1, none, none⟩ (by decide) (Or.inl (by decide))).1

/-- Claim C3, counterexample: a store holding only the failed entry
`{data: null, error: Error("")}` serializes to `{"k":{"data":null,"error":""}}`,
but hydration tests the transported message for truthiness, so `load(dump())`
installs `error = null`: the empty error message string is not reproduced. -/
theorem roundTrip_cex :
    cacheGet "k" (initializeCache []
      (ParsedInput.parsed (serializeCache [("k", ⟨Json.null, some "", none⟩)]))) =
      some { data := Json.null, error := none, promise := none } ∧
    cacheGet "k" ([("k", ⟨Json.null, some "", none⟩)] : Cache) =
      some { data := Json.null, error := some "", promise := none } ∧
    some ({ data := Json.null, error := none, promise := none } : CacheEntry) ≠
      some ({ data := Json.null, error := some "", promise := none } : CacheEntry) := by
  decide

/-- Claim C3 as amended: for a store of resolved/failed entries (unique
keys, no in-flight handle) whose error messages are all non-empty,
`initializeCache` applied to the parse of `serializeCache`'s output
reproduces, key by key, exactly the stored entries — same data values, same
error messages. -/
theorem serialize_roundTrip (c : Cache) (k : String)
    (hkeys : (c.map Prod.fst).Nodup)
    (hsettled : ∀ p ∈ c, (p.2 : CacheEntry).promise = none)
    (hmsg : ∀ p ∈ c, (p.2 : CacheEntry).error ≠ some "") :
    cacheGet k (initializeCache [] (ParsedInput.parsed (serializeCache c))) =
      cacheGet k c := by
  have hse : snapshotEntries (serializeCache c) =
      some (c.map (fun p => (p.1, serializeEntry p.2))) := rfl
  simp only [initializeCache, hse]
  rw [cacheGet_hydrateList, lastLookup_map_serialize k c hkeys]
  cases hg : cacheGet k c with
  | none => rfl
  | some e =>
      have hmem := mem_of_cacheGet k c e hg
      simp only [Option.map_some']
      rw [hydrateEntry_serializeEntry e (hsettled (k, e) hmem) (hmsg (k, e) hmem)]

/-- Witness for C3 (amended): a two-entry store (one resolved, one failed
with a non-empty message) round-trips at key "a". -/
theorem serialize_roundTrip_witness :
    cacheGet "a" (initializeCache [] (ParsedInput.parsed (serializeCache
      [("a", ⟨Json.num 5, none, none⟩), ("b", ⟨Json.null, some "boom", none⟩)]))) =
      cacheGet "a" [("a", ⟨Json.num 5, none, none⟩), ("b", ⟨Json.null, some "boom", none⟩)] :=
  serialize_roundTrip [("a", ⟨Json.num 5, none, none⟩), ("b", ⟨Json.null, some "boom", none⟩)]
    "a" (by decide) (by decide) (by decide)

/-- Claim C5, counterexample: both operations the claim lists can break I2.
Hydrating the snapshot `{"k":{"data":1,"error":"boom"}}` into the empty
(I2-satisfying) store installs an entry whose `data` and `error` are both
non-null; and starting a retrieval over a resolved entry with the falsy
non-null data `0` installs a pending entry that still carries that data. -/
theorem storeI2_cex :
    StoreI2 ([] : Cache) ∧
    ¬ StoreI2 (initializeCache [] (ParsedInput.parsed
      (Json.obj [("k", Json.obj [("data", Json.num 1), ("error", Json.str "boom")])]))) ∧
    StoreI2 ([("u", ⟨Json.num 0, none, none⟩)] : Cache) ∧
    ¬ StoreI2 (fetchAndCache "u"
      (⟨[("u", ⟨Json.num 0, none, none⟩)], 1, []⟩ : Sys)).1.cache := by
  decide

/-- Claim C5 as amended: I2 (data/error mutually exclusive, both absent
while pending) is preserved by retrieval completion and by wipe
unconditionally; by a retrieval start provided the key's prior data is null;
and by hydration provided every snapshot entry has null/absent data or a
falsy error field. -/
theorem storeI2_preservation :
    (∀ (s : Sys) (url : String) (r : Response),
      StoreI2 s.cache → StoreI2 (completeFetch url r s).cache) ∧
    (∀ s : Sys, StoreI2 (wipeCache s).cache) ∧
    (∀ (s : Sys) (url : String), StoreI2 s.cache → entryData s.cache url = Json.null →
      StoreI2 (fetchAndCache url s).1.cache) ∧
    (∀ (c : Cache) (j : Json), StoreI2 c →
      (∀ p ∈ (snapshotEntries j).getD [], exclusiveField p.2) →
      StoreI2 (initializeCache c (ParsedInput.parsed j))) := by
  refine ⟨?_, ?_, ?_, ?_⟩
  · intro s url r h
    exact StoreI2_cacheSet _ _ _ h (EntryI2_settleEntry r)
  · intro s p hp
    exact absurd hp (List.not_mem_nil p)
  · intro s url h hd
    cases hb : (cacheGet url s.cache).bind (fun e => e.promise) with
    | some p =>
        have : (fetchAndCache url s).1 = s := by
          unfold fetchAndCache
          rw [hb]
        rw [this]
        exact h
    | none =>
        have hstep : (fetchAndCache url s).1.cache =
            cacheSet url
              { data := entryData s.cache url
                error := none
                promise := some s.nextId } s.cache := by
          unfold fetchAndCache
          rw [hb]
        rw [hstep]
        refine StoreI2_cacheSet _ _ _ h ⟨Or.inl hd, fun _ => ⟨hd, rfl⟩⟩
  · intro c j hc hl
    have hred : initializeCache c (ParsedInput.parsed j) =
        match snapshotEntries j with
        | none => c
        | some l => hydrateList c l := rfl
    rw [hred]
    cases hs : snapshotEntries j with
    | none => exact hc
    | some l =>
        simp only
        refine StoreI2_hydrateList c l hc (fun p hp => hl p ?_)
        rw [hs]
        exact hp

/-- Witness for C5 (amended): the preserved cases at concrete inputs — a
failed completion over a one-entry store, a retrieval start over the empty
store, and hydration of an exclusive snapshot. -/
theorem storeI2_preservation_witness :
    StoreI2 (completeFetch "u" ⟨false, 500, Except.ok Json.null⟩
      (⟨[("a", ⟨Json.num 3, none, none⟩)], 1, []⟩ : Sys)).cache ∧
    StoreI2 (fetchAndCache "u" (⟨[], 0, []⟩ : Sys)).1.cache ∧
    StoreI2 (initializeCache [] (ParsedInput.parsed
      (Json.obj [("k", Json.obj [("data", Json.num 1), ("error", Json.null)])]))) :=
  ⟨storeI2_preservation.1 ⟨[("a", ⟨Json.num 3, none, none⟩)], 1, []⟩ "u"
      ⟨false, 500, Except.ok Json.null⟩ (by decide),
   storeI2_preservation.2.2.1 ⟨[], 0, []⟩ "u" (by decide) (by decide),
   storeI2_preservation.2.2.2 []
      (Json.obj [("k", Json.obj [("data", Json.num 1), ("error", Json.null)])])
      (by decide) (by decide)⟩

/-- Claim C6, counterexample: for the resolved entry `{data: 0, error:
null}` the initial snapshot is `{isLoading: true, data: 0, error: null}`.
This falsifies the claim on both of its sides: the entry has (non-null)
data, yet `loading` is not false; and on the claim's "otherwise" branch the
snapshot's data would have to be null, yet it is `0`. -/
theorem initialSnapshot_cex :
    useCachingFetch "u" [("u", ⟨Json.num 0, none, none⟩)] =
      { isLoading := true, data := Json.num 0, error := none } ∧
    Json.num 0 ≠ Json.null := by
  decide

/-- Claim C6 as amended: the initial snapshot has `isLoading = false` iff
the entry exists and carries truthy data or a non-null error, and in every
case reflects the entry's stored `data`/`error` (defaulting to null when no
entry exists) — so a falsy non-null data value is reported together with
`isLoading = true`; the effect triggers `fetchAndCache` iff the entry's
data is falsy and its error null. -/
theorem initialSnapshot_characterization (url : String) (c : Cache) :
    (cacheGet url c = none →
      useCachingFetch url c = { isLoading := true, data := Json.null, error := none } ∧
      (∀ s : Sys, s.cache = c → useCachingFetchEffect url s = (fetchAndCache url s).1)) ∧
    (∀ e, cacheGet url c = some e → (truthy e.data = true ∨ e.error ≠ none) →
      useCachingFetch url c = { isLoading := false, data := e.data, error := e.error } ∧
      (∀ s : Sys, s.cache = c → useCachingFetchEffect url s = s)) ∧
    (∀ e, cacheGet url c = some e → truthy e.data = false → e.error = none →
      useCachingFetch url c = { isLoading := true, data := e.data, error := none } ∧
      (∀ s : Sys, s.cache = c → useCachingFetchEffect url s = (fetchAndCache url s).1)) := by
  refine ⟨?_, ?_, ?_⟩
  · intro h
    have hg : hasDataOrError c url = false := by simp [hasDataOrError, h]
    constructor
    · simp [useCachingFetch, h]
    · intro s hs
      simp [useCachingFetchEffect, hs, hg]
  · intro e he hde
    have hb : (truthy e.data || e.error.isSome) = true := by
      rcases hde with h | h
      · simp [h]
      · simp [Option.isSome_iff_ne_none.mpr h]
    have hg : hasDataOrError c url = true := by simp [hasDataOrError, he, hb]
    constructor
    · simp [useCachingFetch, he, hb]
    · intro s hs
      simp [useCachingFetchEffect, hs, hg]
  · intro e he hd herr
    have hg : hasDataOrError c url = false := by simp [hasDataOrError, he, hd, herr]
    constructor
    · simp [useCachingFetch, he, hd, herr]
    · intro s hs
      simp [useCachingFetchEffect, hs, hg]

/-- Witness for C6 (amended): a truthy resolved entry renders with
`isLoading = false`; a falsy resolved entry renders its data with
`isLoading = true`. -/
theorem initialSnapshot_characterization_witness :
    useCachingFetch "u" [("u", ⟨Json.num 2, none, none⟩)] =
      { isLoading := false, data := Json.num 2, error := none } ∧
    useCachingFetch "u" [("u", ⟨Json.num 0, none, none⟩)] =
      { isLoading := true, data := Json.num 0, error := none } :=
  ⟨((initialSnapshot_characterization "u" [("u", ⟨Json.num 2, none, none⟩)]).2.1
      ⟨Json.num 2, none, none⟩ (by decide) (Or.inl (by decide))).1,
   ((initialSnapshot_characterization "u" [("u", ⟨Json.num 0, none, none⟩)]).2.2
      ⟨Json.num 0, none, none⟩ (by decide) (by decide) (by decide)).1⟩
